import Mathlib

/-!
# IAM-20380HT gyroscope logger (`gyro.c`): embedding and verified properties

The C program talks to the sensor through three bus helpers
(`i2c_read_byte`, `i2c_write_byte`, `i2c_read_word`), runs a self-test, computes
calibration offsets and then samples in a paced loop.

Conventions of the embedding:
* `uint8_t` values are naturals reduced `% 256` wherever C converts to the type;
  `int16_t` is an `Int` obtained through `toInt16`.
* `float` arithmetic is abstracted by an `Arith` record of operations; the exact
  instance `exactArith : Arith ℚ` is ordinary rational arithmetic.
* a helper that ends in `cleanup(); exit(1);` returns `none`.
* `long` has `bits` bits, a parameter (the source does not fix the target);
  every `long` result is reduced by `wrapLong`.
-/

namespace Gyro

/-! ## Register map (the `#define`s of the source) -/

def REG_SELF_TEST_X_GYRO : Nat := 0x00
def REG_SELF_TEST_Y_GYRO : Nat := 0x01
def REG_SELF_TEST_Z_GYRO : Nat := 0x02
def REG_SMPLRT_DIV : Nat := 0x19
def REG_CONFIG : Nat := 0x1A
def REG_GYRO_CONFIG : Nat := 0x1B
def REG_TEMP_OUT_H : Nat := 0x41
def REG_GYRO_XOUT_H : Nat := 0x43
def REG_GYRO_YOUT_H : Nat := 0x45
def REG_GYRO_ZOUT_H : Nat := 0x47
def REG_PWR_MGMT_1 : Nat := 0x6B
def REG_PWR_MGMT_2 : Nat := 0x6C
def REG_WHO_AM_I : Nat := 0x75
def EXPECTED_WHOAMI : Nat := 0xFA

/-! ## The register bus -/

/-- One completed transaction on the I2C descriptor, as the device sees it. -/
inductive BusOp where
  | read (reg : Nat)
  | write (reg value : Nat)
deriving DecidableEq, Repr

/-- The bus as the program sees it: the transactions issued so far and what
the coming read transfers will deliver (`none`, or nothing left: the transfer
fails). -/
structure Bus where
  log : List BusOp
  replies : List (Option Nat)
deriving DecidableEq, Repr

/-- Conversion of an `int` to `int16_t` (two's complement, as on the target). -/
def toInt16 (v : Nat) : Int :=
  if v % 65536 < 32768 then ((v % 65536 : Nat) : Int) else ((v % 65536 : Nat) : Int) - 65536

/-- `uint8_t i2c_read_byte(uint8_t reg)`: select the register, read one byte.
A failed transfer runs `cleanup(); exit(1);`, here `none`. -/
def i2c_read_byte (reg : Nat) (bus : Bus) : Option (Nat × Bus) :=
  match bus.replies with
  | some value :: rest =>
      some (value % 256, { log := bus.log ++ [BusOp.read (reg % 256)], replies := rest })
  | _ => none

/-- `void i2c_write_byte(uint8_t reg, uint8_t value)`; `ok = false` is a failed
`write`, which runs `cleanup(); exit(1);`. -/
def i2c_write_byte (reg value : Nat) (ok : Bool) (bus : Bus) : Option Bus :=
  if ok then some { bus with log := bus.log ++ [BusOp.write (reg % 256) (value % 256)] }
  else none

/-- `int16_t i2c_read_word(uint8_t reg)`: `buf[0]` from `reg`, `buf[1]` from
`reg + 1` (an `int`, converted to `uint8_t` by the call), result
`(buf[0] << 8) | buf[1]` converted to `int16_t`. -/
def i2c_read_word (reg : Nat) (bus : Bus) : Option (Int × Bus) :=
  match i2c_read_byte (reg % 256) bus with
  | none => none
  | some (b0, bus1) =>
    match i2c_read_byte (reg % 256 + 1) bus1 with
    | none => none
    | some (b1, bus2) => some (toInt16 ((b0 <<< 8) ||| b1), bus2)

/-! ## Arithmetic of the `float` computations -/

/-- The operations the program performs on `float` values: conversion of an
integer, a decimal constant of the source, and `+`, `-`, `/`. -/
structure Arith (F : Type) where
  ofInt : Int → F
  lit : ℚ → F
  add : F → F → F
  sub : F → F → F
  div : F → F → F

/-- Exact rational arithmetic. -/
def exactArith : Arith ℚ where
  ofInt := fun z => (z : ℚ)
  lit := fun q => q
  add := fun a b => a + b
  sub := fun a b => a - b
  div := fun a b => a / b

/-- `GYRO_SCALE_2000DPS`, the constant `16.4f`. -/
def GYRO_SCALE_2000DPS : ℚ := 16.4

/-! ## Samples and calibration state -/

/-- The four words read per acquisition: `gyro_x`, `gyro_y`, `gyro_z`,
`temp_raw` (each an `int16_t`). -/
structure RawSample where
  gyro_x : Int
  gyro_y : Int
  gyro_z : Int
  temp_raw : Int
deriving DecidableEq, Repr

/-- The four word reads of one acquisition, in program order: `GYRO_XOUT_H`,
`GYRO_YOUT_H`, `GYRO_ZOUT_H`, `TEMP_OUT_H`. -/
def read_raw_sample (bus : Bus) : Option (RawSample × Bus) :=
  match i2c_read_word REG_GYRO_XOUT_H bus with
  | none => none
  | some (gyro_x, bus1) =>
    match i2c_read_word REG_GYRO_YOUT_H bus1 with
    | none => none
    | some (gyro_y, bus2) =>
      match i2c_read_word REG_GYRO_ZOUT_H bus2 with
      | none => none
      | some (gyro_z, bus3) =>
        match i2c_read_word REG_TEMP_OUT_H bus3 with
        | none => none
        | some (temp_raw, bus4) =>
          some ({ gyro_x := gyro_x, gyro_y := gyro_y, gyro_z := gyro_z, temp_raw := temp_raw },
            bus4)

/-- The globals `running`, `gyro_offset[0..2]` and `temp_offset`. -/
structure Globals (F : Type) where
  running : Bool
  gyro_offset0 : F
  gyro_offset1 : F
  gyro_offset2 : F
  temp_offset : F
deriving DecidableEq, Repr

/-- The program's initial globals: `running = 1`, all offsets `0.0f`. -/
def initialGlobals {F : Type} (A : Arith F) : Globals F :=
  { running := true, gyro_offset0 := A.lit 0, gyro_offset1 := A.lit 0,
    gyro_offset2 := A.lit 0, temp_offset := A.lit 0 }

/-- The locals `sum_gyro_x`, `sum_gyro_y`, `sum_gyro_z`, `sum_temp` of
`calculate_offsets`. -/
structure Sums (F : Type) where
  sum_gyro_x : F
  sum_gyro_y : F
  sum_gyro_z : F
  sum_temp : F
deriving DecidableEq, Repr

/-- `(temp_raw / 340.0f) + 36.53f`. -/
def rawTemperature {F : Type} (A : Arith F) (temp_raw : Int) : F :=
  A.add (A.div (A.ofInt temp_raw) (A.lit 340)) (A.lit 36.53)

/-- Body of the `for` loop of `calculate_offsets` on the sample just read. -/
def offsetsBody {F : Type} (A : Arith F) (r : RawSample) (s : Sums F) : Sums F :=
  { sum_gyro_x := A.add s.sum_gyro_x (A.div (A.ofInt r.gyro_x) (A.lit GYRO_SCALE_2000DPS))
    sum_gyro_y := A.add s.sum_gyro_y (A.div (A.ofInt r.gyro_y) (A.lit GYRO_SCALE_2000DPS))
    sum_gyro_z := A.add s.sum_gyro_z (A.div (A.ofInt r.gyro_z) (A.lit GYRO_SCALE_2000DPS))
    sum_temp := A.add s.sum_temp (rawTemperature A r.temp_raw) }

/-- The loop `for (int i = 0; i < samples; i++)`: `todo` iterations remain, the
next one is iteration `i`, whose four word reads deliver `stream i`. -/
def offsetsLoop {F : Type} (A : Arith F) (stream : Nat → RawSample) :
    Nat → Nat → Sums F → Sums F
  | 0, _, s => s
  | todo + 1, i, s => offsetsLoop A stream todo (i + 1) (offsetsBody A (stream i) s)

/-- `void calculate_offsets(int samples)`, as a transformer of the globals. -/
def calculate_offsets {F : Type} (A : Arith F) (samples : Int) (stream : Nat → RawSample)
    (g : Globals F) : Globals F :=
  let s := offsetsLoop A stream samples.toNat 0
    { sum_gyro_x := A.ofInt 0, sum_gyro_y := A.ofInt 0, sum_gyro_z := A.ofInt 0,
      sum_temp := A.ofInt 0 }
  let avg_temp := A.div s.sum_temp (A.ofInt samples)
  { g with
    gyro_offset0 := A.div s.sum_gyro_x (A.ofInt samples)
    gyro_offset1 := A.div s.sum_gyro_y (A.ofInt samples)
    gyro_offset2 := A.div s.sum_gyro_z (A.ofInt samples)
    temp_offset := A.sub avg_temp (A.lit 25) }

/-- One converted sample: `gyro_x_dps`, `gyro_y_dps`, `gyro_z_dps`, `temp_c`. -/
structure PhysicalSample (F : Type) where
  gyro_x_dps : F
  gyro_y_dps : F
  gyro_z_dps : F
  temp_c : F
deriving DecidableEq, Repr

/-- The conversion of the sampling loop ("Convert raw values to real-world
units" and the temperature line after it). -/
def convert {F : Type} (A : Arith F) (g : Globals F) (r : RawSample) : PhysicalSample F :=
  { gyro_x_dps := A.sub (A.div (A.ofInt r.gyro_x) (A.lit GYRO_SCALE_2000DPS)) g.gyro_offset0
    gyro_y_dps := A.sub (A.div (A.ofInt r.gyro_y) (A.lit GYRO_SCALE_2000DPS)) g.gyro_offset1
    gyro_z_dps := A.sub (A.div (A.ofInt r.gyro_z) (A.lit GYRO_SCALE_2000DPS)) g.gyro_offset2
    temp_c := A.sub (rawTemperature A r.temp_raw) g.temp_offset }

/-! ## Self-test verdict -/

/-- The `double` operations of the trim formula, `pow` and `*`, and the
conversion of a `double` to `float`, each on the numbers the values denote and
rounding as the target does. -/
structure TrimArith where
  pow : ℚ → ℚ → ℚ
  mul : ℚ → ℚ → ℚ
  toFloat : ℚ → ℚ

/-- `(float)((2620.0 / 8.0) * pow(1.01, (float)self_test - 1.0))` for a trim
register value. -/
def factory_trim (D : TrimArith) (self_test : Nat) : ℚ :=
  D.toFloat (D.mul (2620 / 8) (D.pow 1.01 ((self_test : ℚ) - 1)))

/-- `fabs(str / factory_trim)`: the `float` quotient as the arithmetic `A`
rounds it; `fabs` is exact. -/
def str_ratio (A : Arith ℚ) (str trim : ℚ) : ℚ := |A.div str trim|

/-- The flag `pass` of `perform_self_test_and_calibration`, from the three
values `str_ratio_x`, `str_ratio_y`, `str_ratio_z`. -/
def self_test_pass (str_ratio_x str_ratio_y str_ratio_z : ℚ) : Bool :=
  decide (str_ratio_x > 0.5) && decide (str_ratio_x < 1.5) &&
  decide (str_ratio_y > 0.5) && decide (str_ratio_y < 1.5) &&
  decide (str_ratio_z > 0.5) && decide (str_ratio_z < 1.5)

/-- The verdict from the averaged readings without (`avg`) and with (`avg_st`)
self-test and the three trim register values, as computed after the two
averaging loops, in the `float` arithmetic `A` and the `double` arithmetic `D`. -/
def self_test_verdict (A : Arith ℚ) (D : TrimArith) (self_test_x self_test_y self_test_z : Nat)
    (avg_x avg_y avg_z avg_x_st avg_y_st avg_z_st : ℚ) : Bool :=
  let str_x := A.sub avg_x_st avg_x
  let str_y := A.sub avg_y_st avg_y
  let str_z := A.sub avg_z_st avg_z
  self_test_pass (str_ratio A str_x (factory_trim D self_test_x))
    (str_ratio A str_y (factory_trim D self_test_y))
    (str_ratio A str_z (factory_trim D self_test_z))

/-! ## Startup: `main` up to the sampling loop -/

/-- What the environment answers during startup: whether `open`, `ioctl` and
`fopen` succeed, the byte read from `WHO_AM_I` (`none`: the transfer fails), and
how many bus transfers after the identity read succeed before one fails
(`none`: all succeed). -/
structure StartupEnv where
  open_ok : Bool
  ioctl_ok : Bool
  whoami : Option Nat
  fopen_ok : Bool
  bus_fault : Option Nat
deriving DecidableEq, Repr

/-- The lines printed during startup. -/
inductive Msg where
  | whoamiLine (whoami expected : Nat)
  | unexpectedWhoami
  | noResponse
  | identified
  | sensorInitialized
  | performingSelfTest
  | factoryTrim
  | selfTestResponse
  | selfTestRatio
  | selfTestVerdict
  | calculatingOffsets
  | keepStill
  | gyroOffsets
  | temperatureOffset
  | startingCollection
  | pressCtrlC
deriving DecidableEq, Repr

/-- The externally visible actions of startup, in program order; `busRead` and
`busWrite` are the transfers of `i2c_read_byte` and `i2c_write_byte`. -/
inductive Event where
  | openBus
  | setSlaveAddress
  | busRead (reg : Nat)
  | busWrite (reg value : Nat)
  | usleep (us : Nat)
  | say (m : Msg)
  | closeBus
  | fopenData
  | fcloseData
  | writeHeader
  | installHandlers
deriving DecidableEq, Repr

/-- How startup ends: `exit_code = some c` when `main` returns `c` (or a bus
helper exits with `c`) before the loop, `none` when the sampling loop is reached. -/
structure Startup where
  events : List Event
  exit_code : Option Nat
deriving DecidableEq, Repr

/-- `cleanup()`: close the data file if it is open, then the bus. -/
def cleanup (data_file_open : Bool) : List Event :=
  (if data_file_open then [Event.fcloseData] else []) ++ [Event.closeBus]

/-- The actions of one `i2c_write_byte(reg, value)`: the transfer and
`usleep(10)`. -/
def writeEvents (reg value : Nat) : List Event :=
  [Event.busWrite (reg % 256) (value % 256), Event.usleep 10]

/-- The actions of one `i2c_read_word(reg)`: two byte reads. -/
def wordEvents (reg : Nat) : List Event :=
  [Event.busRead (reg % 256), Event.busRead ((reg % 256 + 1) % 256)]

/-- The actions `l`, `n` times over. -/
def repeatEvents : Nat → List Event → List Event
  | 0, _ => []
  | n + 1, l => l ++ repeatEvents n l

/-- The actions of `initialize_sensor`. -/
def initialize_sensor : List Event :=
  writeEvents REG_PWR_MGMT_1 0x80 ++ [Event.usleep 100000] ++
  writeEvents REG_PWR_MGMT_1 0x01 ++ [Event.usleep 10000] ++
  writeEvents REG_GYRO_CONFIG 0x18 ++
  writeEvents REG_CONFIG 0x00 ++
  writeEvents REG_SMPLRT_DIV 0x00 ++
  [Event.say Msg.sensorInitialized]

/-- One pass of an averaging loop of the self-test: three word reads and
`usleep(1000)`. -/
def selfTestPass : List Event :=
  wordEvents REG_GYRO_XOUT_H ++ wordEvents REG_GYRO_YOUT_H ++ wordEvents REG_GYRO_ZOUT_H ++
  [Event.usleep 1000]

/-- The actions of `perform_self_test_and_calibration`. -/
def perform_self_test_and_calibration : List Event :=
  writeEvents REG_PWR_MGMT_2 0x00 ++ [Event.usleep 200000] ++
  [Event.busRead REG_SELF_TEST_X_GYRO, Event.busRead REG_SELF_TEST_Y_GYRO,
   Event.busRead REG_SELF_TEST_Z_GYRO, Event.say Msg.factoryTrim] ++
  repeatEvents 200 selfTestPass ++
  writeEvents REG_GYRO_CONFIG (0x18 ||| 0xE0) ++ [Event.usleep 200000] ++
  repeatEvents 200 selfTestPass ++
  [Event.say Msg.selfTestResponse, Event.say Msg.selfTestRatio, Event.say Msg.selfTestVerdict] ++
  writeEvents REG_GYRO_CONFIG 0x18 ++ [Event.usleep 100000]

/-- The actions of `calculate_offsets(samples)`: the prompt, one second of
delay, then per sample four word reads and `usleep(5000)`. -/
def calculateOffsetsEvents (samples : Int) : List Event :=
  [Event.say Msg.keepStill, Event.usleep 1000000] ++
  repeatEvents samples.toNat
    (wordEvents REG_GYRO_XOUT_H ++ wordEvents REG_GYRO_YOUT_H ++ wordEvents REG_GYRO_ZOUT_H ++
      wordEvents REG_TEMP_OUT_H ++ [Event.usleep 5000])

/-- The actions of `main` from the header line to the loop, when no bus
transfer fails. -/
def afterOpen : List Event :=
  [Event.writeHeader, Event.installHandlers] ++ initialize_sensor ++
  [Event.say Msg.performingSelfTest] ++ perform_self_test_and_calibration ++
  [Event.say Msg.calculatingOffsets] ++ calculateOffsetsEvents 200 ++
  [Event.say Msg.gyroOffsets, Event.say Msg.temperatureOffset] ++
  writeEvents REG_SMPLRT_DIV 0x00 ++ writeEvents REG_CONFIG 0x00 ++
  [Event.say Msg.startingCollection, Event.say Msg.pressCtrlC]

/-- Whether the action is a bus transfer of `i2c_read_byte` or `i2c_write_byte`. -/
def isTransfer : Event → Bool
  | Event.busRead _ => true
  | Event.busWrite _ _ => true
  | _ => false

/-- The actions that take place when the transfer with index `fault` fails
(`none`: no transfer fails), and whether all of them took place: the failing
transfer is the last action before `cleanup(); exit(1);`. -/
def runTransfers : Option Nat → List Event → List Event × Bool
  | _, [] => ([], true)
  | fault, e :: rest =>
    if isTransfer e then
      match fault with
      | some 0 => ([e], false)
      | some (n + 1) => (e :: (runTransfers (some n) rest).1, (runTransfers (some n) rest).2)
      | none => (e :: (runTransfers none rest).1, (runTransfers none rest).2)
    else (e :: (runTransfers fault rest).1, (runTransfers fault rest).2)

/-- `main` from `fopen` to the loop, after the actions `pre`. -/
def openAndCalibrate (env : StartupEnv) (pre : List Event) : Startup :=
  if !env.fopen_ok then
    { events := pre ++ [Event.fopenData, Event.closeBus], exit_code := some 1 }
  else if (runTransfers env.bus_fault afterOpen).2 then
    { events := pre ++ [Event.fopenData] ++ (runTransfers env.bus_fault afterOpen).1,
      exit_code := none }
  else
    { events := pre ++ [Event.fopenData] ++ (runTransfers env.bus_fault afterOpen).1 ++
        cleanup true, exit_code := some 1 }

/-- The start of `main`: open the bus, bind the address, check `WHO_AM_I`,
open the data file, initialise and calibrate. -/
def main_startup (env : StartupEnv) : Startup :=
  if !env.open_ok then { events := [Event.openBus], exit_code := some 1 }
  else if !env.ioctl_ok then
    { events := [Event.openBus, Event.setSlaveAddress, Event.closeBus], exit_code := some 1 }
  else
    match env.whoami with
    | none =>
      { events := [Event.openBus, Event.setSlaveAddress, Event.busRead REG_WHO_AM_I] ++
          cleanup false, exit_code := some 1 }
    | some value =>
      let whoami := value % 256
      let pre := [Event.openBus, Event.setSlaveAddress, Event.busRead REG_WHO_AM_I,
        Event.say (Msg.whoamiLine whoami EXPECTED_WHOAMI)]
      if whoami ≠ EXPECTED_WHOAMI then
        if whoami = 0 then
          { events := pre ++ [Event.say Msg.unexpectedWhoami, Event.say Msg.noResponse,
              Event.closeBus], exit_code := some 1 }
        else openAndCalibrate env (pre ++ [Event.say Msg.unexpectedWhoami])
      else openAndCalibrate env (pre ++ [Event.say Msg.identified])

/-! ## The sampling loop: pacing -/

/-- `struct timespec`. -/
structure timespec where
  tv_sec : Int
  tv_nsec : Int
deriving DecidableEq, Repr

/-- The duration or instant a `timespec` denotes, in nanoseconds. -/
def timespec.toNanos (t : timespec) : Int := t.tv_sec * 1000000000 + t.tv_nsec

/-- A `timespec` as the clock returns it and as `nanosleep` accepts it. -/
def timespec.normalised (t : timespec) : Prop :=
  0 ≤ t.tv_sec ∧ 0 ≤ t.tv_nsec ∧ t.tv_nsec < 1000000000

instance (t : timespec) : Decidable t.normalised := by
  unfold timespec.normalised
  infer_instance

/-- The target period: 1 ms in nanoseconds (the factor in `target_time`). -/
def PERIOD_NS : Int := 1000000

/-- The computation of `elapsed` from `start` and `now`, with the borrow. On
normalised timestamps the nanosecond fields differ by less than `10^9`, inside
any `long`; `tv_sec` is a `time_t`. -/
def elapsedSince (start now : timespec) : timespec :=
  let tv_sec := now.tv_sec - start.tv_sec
  let tv_nsec := now.tv_nsec - start.tv_nsec
  if tv_nsec < 0 then { tv_sec := tv_sec - 1, tv_nsec := tv_nsec + 1000000000 }
  else { tv_sec := tv_sec, tv_nsec := tv_nsec }

/-- `LONG_MAX + 1` for a `long` of `bits` bits (32 on ILP32 targets, 64 on LP64
targets). -/
def longLimit (bits : Nat) : Int := 2 ^ (bits - 1)

/-- Conversion of an integer to `long` (two's complement): the value congruent
to `x` modulo `2 * longLimit bits` in the range `-longLimit bits` to
`longLimit bits - 1`. -/
def wrapLong (bits : Nat) (x : Int) : Int :=
  (x + longLimit bits) % (2 * longLimit bits) - longLimit bits

/-- The pacing step ("Calculate timing to maintain 1000 Hz sampling rate"):
from the counter after its increment, `start`, `now` and the current
`sleep_time`, the updated `sleep_time` and whether `nanosleep(&sleep_time, NULL)`
is called. `target_time`, `current_time_ns` and `sleep_time.tv_nsec` are `long`. -/
def pacing (bits : Nat) (sample_count : Int) (start now sleep_time : timespec) :
    timespec × Bool :=
  let elapsed := elapsedSince start now
  let target_time := wrapLong bits (sample_count * 1000000)
  let current_time_ns :=
    wrapLong bits (wrapLong bits (elapsed.tv_sec * 1000000000) + elapsed.tv_nsec)
  if current_time_ns < target_time then
    ({ sleep_time with tv_nsec := wrapLong bits (target_time - current_time_ns) }, true)
  else (sleep_time, false)

/-- `clock_gettime(CLOCK_MONOTONIC, ..)` when the monotonic clock stands at
`clock` nanoseconds. -/
def clock_gettime (clock : Nat) : timespec :=
  { tv_sec := ((clock / 1000000000 : Nat) : Int), tv_nsec := ((clock % 1000000000 : Nat) : Int) }

/-- The clock after `nanosleep(req, NULL)` called at `clock`: a well-formed
request lets at least the requested time pass (`extra_ns` more); a request that
is not well-formed is refused, and then only `extra_ns`, any amount, passes. -/
def nanosleep (req : timespec) (extra_ns : Nat) (clock : Nat) : Nat :=
  if req.normalised then clock + req.toNanos.toNat + extra_ns else clock + extra_ns

/-- What the environment contributes to one iteration: the sample the four
word reads deliver, the time that passes before `clock_gettime`, and the time
that passes after it beyond the requested sleep. -/
structure IterEnv where
  sample : RawSample
  acquire_ns : Nat
  extra_ns : Nat
deriving DecidableEq, Repr

/-- The locals of the sampling loop, the record lines written so far, the
number of `fflush` calls, the `nanosleep` requests made so far (latest first)
and the monotonic clock. -/
structure LoopState where
  start : timespec
  sleep_time : timespec
  sample_count : Int
  records : List (PhysicalSample ℚ)
  flushes : Nat
  requests : List timespec
  clock : Nat

/-- The state at `while (running)` for the first time, the clock standing at
`clock` when `start` is taken. -/
def loopStart (clock : Nat) : LoopState :=
  { start := clock_gettime clock, sleep_time := { tv_sec := 0, tv_nsec := 50000 },
    sample_count := 0, records := [], flushes := 0, requests := [], clock := clock }

/-- One iteration of the `while (running)` body; `sample_count` is a `long`. -/
def loopIteration (bits : Nat) (g : Globals ℚ) (e : IterEnv) (s : LoopState) : LoopState :=
  let record := convert exactArith g e.sample
  let sample_count := wrapLong bits (s.sample_count + 1)
  let clock1 := s.clock + e.acquire_ns
  let now := clock_gettime clock1
  let p := pacing bits sample_count s.start now s.sleep_time
  { start := s.start
    sleep_time := p.1
    sample_count := sample_count
    records := s.records ++ [record]
    flushes := if sample_count % 100 = 0 then s.flushes + 1 else s.flushes
    requests := if p.2 then p.1 :: s.requests else s.requests
    clock := if p.2 then nanosleep p.1 e.extra_ns clock1 else clock1 + e.extra_ns }

/-- The loop run for `k` iterations (the flag `running` found set `k` times). -/
def runLoop (bits : Nat) (g : Globals ℚ) (env : Nat → IterEnv) : Nat → LoopState → LoopState
  | 0, s => s
  | k + 1, s => loopIteration bits g (env k) (runLoop bits g env k s)

/-- The request is for no whole second and for more than nothing, at most one
period. -/
def boundedRequest (r : timespec) : Prop :=
  r.tv_sec = 0 ∧ 0 < r.tv_nsec ∧ r.tv_nsec ≤ PERIOD_NS

instance (r : timespec) : Decidable (boundedRequest r) := by
  unfold boundedRequest
  infer_instance

/-- An environment in which acquisition takes no time and no sleep overruns. -/
def idleEnv : Nat → IterEnv := fun _ => { sample := ⟨10, 0, 0, 0⟩, acquire_ns := 0, extra_ns := 0 }

/-- What holds at the loop test after `k` iterations, the loop started with the
clock at `c0`. -/
structure LoopInv (bits c0 k : Nat) (s : LoopState) : Prop where
  start_eq : s.start = clock_gettime c0
  count_eq : s.sample_count = wrapLong bits (k : Int)
  sec_eq : s.sleep_time.tv_sec = 0
  clock_lo : c0 ≤ s.clock
  paced : (k : Int) * 1000000 < longLimit bits → (c0 : Int) + (k : Int) * 1000000 ≤ s.clock
  floor : (c0 : Int) + (k : Int) * 1000000 ≤ s.clock ∨
    (c0 : Int) + longLimit bits - 1000000 ≤ s.clock
  records_len : s.records.length = k
  requests_len : s.requests.length ≤ k
  requests_ok : (s.clock : Int) - (c0 : Int) < longLimit bits →
    ∀ r ∈ s.requests, boundedRequest r

/-! ## The sampling loop: cancellation -/

/-- Where the program stands in `while (running) { .. } cleanup(); return 0;`:
at the loop test, reading the four words, about to write the record, in the
rest of the body (counter, pacing, flush), after the loop, or ended by the
`exit(1)` of a failed bus transfer. -/
inductive Pc where
  | top
  | acquire
  | emit
  | pace
  | stopped
  | crashed
deriving DecidableEq, Repr

/-- What happens next: the signal handler runs, or the program takes its next
step (`bus_ok` tells whether the word reads succeed, when that is the step). -/
inductive Tick where
  | signal
  | step (bus_ok : Bool)
deriving DecidableEq, Repr

/-- The flag `running`, the program point, the number of record lines written
and the number of iterations entered. -/
structure Sampler where
  running : Bool
  pc : Pc
  records : Nat
  entered : Nat
deriving DecidableEq, Repr

/-- The sampler when the loop is first reached: `running = 1`, nothing written. -/
def samplerStart : Sampler := { running := true, pc := Pc.top, records := 0, entered := 0 }

/-- `signal_handler`: `running = 0`. -/
def signal_handler (s : Sampler) : Sampler := { s with running := false }

/-- One step of the loop, or one run of `signal_handler` while the process
lives. -/
def samplerStep (s : Sampler) : Tick → Sampler
  | Tick.signal =>
    match s.pc with
    | Pc.stopped => s
    | Pc.crashed => s
    | _ => signal_handler s
  | Tick.step bus_ok =>
    match s.pc with
    | Pc.top =>
      if s.running then { s with pc := Pc.acquire, entered := s.entered + 1 }
      else { s with pc := Pc.stopped }
    | Pc.acquire => if bus_ok then { s with pc := Pc.emit } else { s with pc := Pc.crashed }
    | Pc.emit => { s with pc := Pc.pace, records := s.records + 1 }
    | Pc.pace => { s with pc := Pc.top }
    | Pc.stopped => s
    | Pc.crashed => s

/-- The sampler after a schedule of ticks. -/
def samplerRun (s : Sampler) (ticks : List Tick) : Sampler := ticks.foldl samplerStep s

/-- The iterations entered whose record is not written: 1 while the current
iteration has not reached its `fprintf` and after a failed bus transfer, else 0. -/
def unwritten : Pc → Nat
  | Pc.acquire => 1
  | Pc.emit => 1
  | Pc.crashed => 1
  | _ => 0

/-- The records the iteration in progress will still write: 1 before its
`fprintf`, else 0. -/
def owed : Pc → Nat
  | Pc.acquire => 1
  | Pc.emit => 1
  | _ => 0

/-! # Properties

## Word reads -/

theorem shl_or_bytes (hi lo : Nat) (hlo : lo < 256) :
    (hi <<< 8) ||| lo = hi * 256 + lo := by
  have h := Nat.mul_add_lt_is_or (show lo < 2 ^ 8 by simpa using hlo) hi
  rw [Nat.shiftLeft_eq, Nat.mul_comm hi (2 ^ 8), ← h]

/-- C1 (as amended): for every register address `addr < 256` and bytes `hi`,
`lo` delivered by the bus, `i2c_read_word addr` issues exactly two byte reads,
at `addr` and then at `(addr + 1) % 256`, and returns the signed 16-bit value of
`(hi << 8) | lo`, whose low byte is `lo` and whose high byte is `hi`. -/
theorem i2c_read_word_big_endian (addr hi lo : Nat) (log : List BusOp)
    (rest : List (Option Nat)) (haddr : addr < 256) (hhi : hi < 256) (hlo : lo < 256) :
    i2c_read_word addr { log := log, replies := some hi :: some lo :: rest } =
      some (toInt16 ((hi <<< 8) ||| lo),
        { log := log ++ [BusOp.read addr, BusOp.read ((addr + 1) % 256)], replies := rest }) ∧
    toInt16 ((hi <<< 8) ||| lo) % 256 = (lo : Int) ∧
    toInt16 ((hi <<< 8) ||| lo) / 256 % 256 = (hi : Int) ∧
    (toInt16 ((hi <<< 8) ||| lo) = (hi : Int) * 256 + lo ∨
      toInt16 ((hi <<< 8) ||| lo) = (hi : Int) * 256 + lo - 65536) := by
  have hw := shl_or_bytes hi lo hlo
  refine ⟨?_, ?_, ?_, ?_⟩
  · simp [i2c_read_word, i2c_read_byte, Nat.mod_eq_of_lt haddr, Nat.mod_eq_of_lt hhi,
      Nat.mod_eq_of_lt hlo]
  · rw [hw]; unfold toInt16; split <;> omega
  · rw [hw]; unfold toInt16; split <;> omega
  · rw [hw]; unfold toInt16; split <;> omega

/-- Witness for C1: the word at `REG_GYRO_XOUT_H` with bytes `0xFF`, `0x38`. -/
theorem i2c_read_word_big_endian_witness :
    i2c_read_word 0x43 { log := [], replies := [some 0xFF, some 0x38] } =
      some (toInt16 ((0xFF <<< 8) ||| 0x38),
        { log := [] ++ [BusOp.read 0x43, BusOp.read ((0x43 + 1) % 256)], replies := [] }) ∧
    toInt16 ((0xFF <<< 8) ||| 0x38) % 256 = ((0x38 : Nat) : Int) ∧
    toInt16 ((0xFF <<< 8) ||| 0x38) / 256 % 256 = ((0xFF : Nat) : Int) ∧
    (toInt16 ((0xFF <<< 8) ||| 0x38) = ((0xFF : Nat) : Int) * 256 + (0x38 : Nat) ∨
      toInt16 ((0xFF <<< 8) ||| 0x38) = ((0xFF : Nat) : Int) * 256 + (0x38 : Nat) - 65536) :=
  i2c_read_word_big_endian 0x43 0xFF 0x38 [] [] (by decide) (by decide) (by decide)

/-- C1 (as stated) fails at `addr = 255`: the second byte read goes to register
`0`, not to `255 + 1`. -/
theorem i2c_read_word_wraps_at_255 :
    i2c_read_word 255 { log := [], replies := [some 1, some 2] } =
      some (258, { log := [BusOp.read 255, BusOp.read 0], replies := [] }) ∧
    i2c_read_word 255 { log := [], replies := [some 1, some 2] } ≠
      some (258, { log := [BusOp.read 255, BusOp.read (255 + 1)], replies := [] }) := by
  decide

/-! ## Self-test verdict: the pass flag -/

/-- C2: the flag `pass` is true exactly when each of the three ratios lies
strictly between 0.5 and 1.5; a ratio `<= 0.5` or `>= 1.5` on any axis (the two
bounds included) makes the self-test fail; and the verdict of the procedure is
this flag at the ratios `|response / trim|`, whatever the rounding of the
`float` and `double` operations. -/
theorem self_test_pass_iff (rx ry rz : ℚ) :
    (self_test_pass rx ry rz = true ↔
      (0.5 < rx ∧ rx < 1.5) ∧ (0.5 < ry ∧ ry < 1.5) ∧ (0.5 < rz ∧ rz < 1.5)) ∧
    ((rx ≤ 0.5 ∨ 1.5 ≤ rx ∨ ry ≤ 0.5 ∨ 1.5 ≤ ry ∨ rz ≤ 0.5 ∨ 1.5 ≤ rz) →
      self_test_pass rx ry rz = false) ∧
    (∀ a b : ℚ, self_test_pass 0.5 a b = false ∧ self_test_pass 1.5 a b = false ∧
      self_test_pass a 0.5 b = false ∧ self_test_pass a 1.5 b = false ∧
      self_test_pass a b 0.5 = false ∧ self_test_pass a b 1.5 = false) ∧
    (∀ (A : Arith ℚ) (D : TrimArith) (tx ty tz : Nat) (ax ay az sx sy sz : ℚ),
      self_test_verdict A D tx ty tz ax ay az sx sy sz =
        self_test_pass |A.div (A.sub sx ax) (factory_trim D tx)|
          |A.div (A.sub sy ay) (factory_trim D ty)|
          |A.div (A.sub sz az) (factory_trim D tz)|) := by
  have key : self_test_pass rx ry rz = true ↔
      (0.5 < rx ∧ rx < 1.5) ∧ (0.5 < ry ∧ ry < 1.5) ∧ (0.5 < rz ∧ rz < 1.5) := by
    simp only [self_test_pass, Bool.and_eq_true, decide_eq_true_eq, gt_iff_lt]
    tauto
  refine ⟨key, ?_, ?_, ?_⟩
  · intro h
    rw [← Bool.not_eq_true, key]
    rintro ⟨⟨h1, h2⟩, ⟨h3, h4⟩, h5, h6⟩
    rcases h with h | h | h | h | h | h
    · exact absurd h1 (not_lt.mpr h)
    · exact absurd h2 (not_lt.mpr h)
    · exact absurd h3 (not_lt.mpr h)
    · exact absurd h4 (not_lt.mpr h)
    · exact absurd h5 (not_lt.mpr h)
    · exact absurd h6 (not_lt.mpr h)
  · intro a b
    simp [self_test_pass]
  · intros
    rfl

/-! ## Offset calibration and conversion -/

/-- The sums accumulated by the loop of `calculate_offsets` in exact arithmetic. -/
theorem offsetsLoop_exact (stream : Nat → RawSample) (todo i : Nat) (s : Sums ℚ) :
    offsetsLoop exactArith stream todo i s =
      { sum_gyro_x := s.sum_gyro_x +
          ∑ j in Finset.range todo, ((stream (i + j)).gyro_x : ℚ) / 16.4
        sum_gyro_y := s.sum_gyro_y +
          ∑ j in Finset.range todo, ((stream (i + j)).gyro_y : ℚ) / 16.4
        sum_gyro_z := s.sum_gyro_z +
          ∑ j in Finset.range todo, ((stream (i + j)).gyro_z : ℚ) / 16.4
        sum_temp := s.sum_temp +
          ∑ j in Finset.range todo, (((stream (i + j)).temp_raw : ℚ) / 340 + 36.53) } := by
  induction todo generalizing i s with
  | zero => simp [offsetsLoop]
  | succ k ih =>
    rw [offsetsLoop, ih]
    simp only [offsetsBody, rawTemperature, exactArith, GYRO_SCALE_2000DPS,
      Finset.sum_range_succ', Nat.add_zero]
    have hidx : ∀ j : Nat, i + 1 + j = i + (j + 1) := fun j => by omega
    simp only [hidx]
    congr 1 <;> ring

/-- The offsets stored by `calculate_offsets` in exact arithmetic, as sums over
the samples read. -/
theorem calculate_offsets_exact (n : Nat) (stream : Nat → RawSample) (g : Globals ℚ) :
    calculate_offsets exactArith (n : Int) stream g =
      { running := g.running
        gyro_offset0 := (∑ i in Finset.range n, ((stream i).gyro_x : ℚ) / 16.4) / n
        gyro_offset1 := (∑ i in Finset.range n, ((stream i).gyro_y : ℚ) / 16.4) / n
        gyro_offset2 := (∑ i in Finset.range n, ((stream i).gyro_z : ℚ) / 16.4) / n
        temp_offset :=
          (∑ i in Finset.range n, (((stream i).temp_raw : ℚ) / 340 + 36.53)) / n - 25 } := by
  simp only [calculate_offsets, Int.toNat_ofNat, offsetsLoop_exact]
  simp [exactArith]

/-- C3: for `n >= 1` samples, `calculate_offsets n` stores in `gyro_offset[k]`
the arithmetic mean of `raw_k / 16.4` and in `temp_offset` the mean of
`t / 340 + 36.53` minus 25 (exact arithmetic); with 200 samples whose `gyro_x`
mean is 10 raw units, `gyro_offset[0]` is `10 / 16.4`, within 0.0001 of 0.6098. -/
theorem calculate_offsets_mean (n : Nat) (hn : 1 ≤ n) (stream : Nat → RawSample)
    (g : Globals ℚ) :
    (calculate_offsets exactArith (n : Int) stream g).gyro_offset0 =
      (∑ i in Finset.range n, ((stream i).gyro_x : ℚ) / 16.4) / n ∧
    (calculate_offsets exactArith (n : Int) stream g).gyro_offset1 =
      (∑ i in Finset.range n, ((stream i).gyro_y : ℚ) / 16.4) / n ∧
    (calculate_offsets exactArith (n : Int) stream g).gyro_offset2 =
      (∑ i in Finset.range n, ((stream i).gyro_z : ℚ) / 16.4) / n ∧
    (calculate_offsets exactArith (n : Int) stream g).temp_offset =
      (∑ i in Finset.range n, (((stream i).temp_raw : ℚ) / 340 + 36.53)) / n - 25 ∧
    (n = 200 → (∑ i in Finset.range n, ((stream i).gyro_x : ℚ)) / n = 10 →
      (calculate_offsets exactArith (n : Int) stream g).gyro_offset0 = 10 / 16.4 ∧
      |(calculate_offsets exactArith (n : Int) stream g).gyro_offset0 - 0.6098| < 0.0001) := by
  have hn0 : (n : ℚ) ≠ 0 := by
    have : 0 < n := hn
    exact_mod_cast this.ne'
  rw [calculate_offsets_exact]
  refine ⟨rfl, rfl, rfl, rfl, ?_⟩
  intro _ hmean
  have h0 : (∑ i in Finset.range n, ((stream i).gyro_x : ℚ) / 16.4) / n = 10 / 16.4 := by
    rw [← Finset.sum_div, div_right_comm, hmean]
  simp only [h0]
  refine ⟨trivial, ?_⟩
  rw [abs_lt]
  constructor <;> norm_num

/-- Witness for C3: 200 samples, each with `gyro_x = 10`. -/
theorem calculate_offsets_mean_witness :
    (calculate_offsets exactArith ((200 : Nat) : Int) (fun _ => ⟨10, -3, 7, -1500⟩)
        (initialGlobals exactArith)).gyro_offset0 = 10 / 16.4 ∧
    |(calculate_offsets exactArith ((200 : Nat) : Int) (fun _ => ⟨10, -3, 7, -1500⟩)
        (initialGlobals exactArith)).gyro_offset0 - 0.6098| < 0.0001 :=
  (calculate_offsets_mean 200 (by decide) (fun _ => ⟨10, -3, 7, -1500⟩)
    (initialGlobals exactArith)).2.2.2.2 rfl (by simp)

/-- C4: after `calculate_offsets n` (`n >= 1`) on a stream whose samples all
equal `r`, the conversion of the sampling loop maps a further reading `r` to
0 dps on each axis and 25 degrees Celsius (exact arithmetic). -/
theorem calibrate_then_convert (n : Nat) (hn : 1 ≤ n) (r : RawSample) (g : Globals ℚ) :
    convert exactArith (calculate_offsets exactArith (n : Int) (fun _ => r) g) r =
      { gyro_x_dps := 0, gyro_y_dps := 0, gyro_z_dps := 0, temp_c := 25 } := by
  have hn0 : (n : ℚ) ≠ 0 := by
    have : 0 < n := hn
    exact_mod_cast this.ne'
  rw [calculate_offsets_exact]
  simp only [convert, rawTemperature, exactArith, GYRO_SCALE_2000DPS, Finset.sum_const,
    Finset.card_range, nsmul_eq_mul]
  congr 1 <;> field_simp <;> ring

/-- Witness for C4: 200 samples with `gyro_x = 10`, then a reading of 10. -/
theorem calibrate_then_convert_witness :
    convert exactArith
      (calculate_offsets exactArith ((200 : Nat) : Int) (fun _ => ⟨10, 0, 0, 0⟩)
        (initialGlobals exactArith)) ⟨10, 0, 0, 0⟩ =
      { gyro_x_dps := 0, gyro_y_dps := 0, gyro_z_dps := 0, temp_c := 25 } :=
  calibrate_then_convert 200 (by decide) ⟨10, 0, 0, 0⟩ (initialGlobals exactArith)

/-- C9: the offsets stored by `calculate_offsets` depend on the sample count
and the raw stream only, not on the globals it starts from; a second run on the
same stream leaves the globals as the first run left them. This holds for any
arithmetic `A`, in particular for `float`. -/
theorem calculate_offsets_idempotent {F : Type} (A : Arith F) (n : Int)
    (stream : Nat → RawSample) (g g2 : Globals F) :
    calculate_offsets A n stream (calculate_offsets A n stream g) =
      calculate_offsets A n stream g ∧
    (calculate_offsets A n stream g).gyro_offset0 =
      (calculate_offsets A n stream g2).gyro_offset0 ∧
    (calculate_offsets A n stream g).gyro_offset1 =
      (calculate_offsets A n stream g2).gyro_offset1 ∧
    (calculate_offsets A n stream g).gyro_offset2 =
      (calculate_offsets A n stream g2).gyro_offset2 ∧
    (calculate_offsets A n stream g).temp_offset =
      (calculate_offsets A n stream g2).temp_offset :=
  ⟨rfl, rfl, rfl, rfl, rfl⟩

/-! ## Pacing of the loop -/

theorem longLimit_pos (bits : Nat) : 0 < longLimit bits := by
  unfold longLimit
  positivity

theorem wrapLong_of_range (bits : Nat) (x : Int) (h1 : -longLimit bits ≤ x)
    (h2 : x < longLimit bits) : wrapLong bits x = x := by
  unfold wrapLong
  rw [Int.emod_eq_of_lt (by omega) (by omega)]
  omega

theorem wrapLong_range (bits : Nat) (x : Int) :
    -longLimit bits ≤ wrapLong bits x ∧ wrapLong bits x < longLimit bits := by
  have hM := longLimit_pos bits
  have h1 := Int.emod_nonneg (x + longLimit bits) (show 2 * longLimit bits ≠ 0 by omega)
  have h2 := Int.emod_lt_of_pos (x + longLimit bits) (show 0 < 2 * longLimit bits by omega)
  unfold wrapLong
  constructor <;> omega

theorem wrapLong_modEq (bits : Nat) (x : Int) :
    wrapLong bits x ≡ x [ZMOD 2 * longLimit bits] := by
  have h := (Int.mod_modEq (x + longLimit bits) (2 * longLimit bits)).sub_right (longLimit bits)
  simpa [wrapLong] using h

theorem wrapLong_congr (bits : Nat) (x y : Int) (h : x ≡ y [ZMOD 2 * longLimit bits]) :
    wrapLong bits x = wrapLong bits y := by
  unfold wrapLong
  have h2 : (x + longLimit bits) % (2 * longLimit bits) =
      (y + longLimit bits) % (2 * longLimit bits) := h.add_right (longLimit bits)
  rw [h2]

theorem wrapLong_add_left (bits : Nat) (a b : Int) :
    wrapLong bits (wrapLong bits a + b) = wrapLong bits (a + b) :=
  wrapLong_congr bits _ _ ((wrapLong_modEq bits a).add_right b)

theorem wrapLong_mul_left (bits : Nat) (a c : Int) :
    wrapLong bits (wrapLong bits a * c) = wrapLong bits (a * c) :=
  wrapLong_congr bits _ _ ((wrapLong_modEq bits a).mul_right c)

theorem elapsedSince_toNanos (start now : timespec) :
    (elapsedSince start now).tv_sec * 1000000000 + (elapsedSince start now).tv_nsec =
      now.toNanos - start.toNanos := by
  unfold elapsedSince timespec.toNanos
  dsimp only
  split <;> dsimp only <;> omega

/-- The pacing step in terms of the distance `now - start` in nanoseconds. -/
theorem pacing_eq (bits : Nat) (N : Int) (start now sleep_time : timespec) :
    pacing bits N start now sleep_time =
      if wrapLong bits (now.toNanos - start.toNanos) < wrapLong bits (N * 1000000) then
        ({ sleep_time with
            tv_nsec := wrapLong bits (wrapLong bits (N * 1000000) -
              wrapLong bits (now.toNanos - start.toNanos)) }, true)
      else (sleep_time, false) := by
  unfold pacing
  simp only [wrapLong_add_left, elapsedSince_toNanos]

theorem clock_gettime_toNanos (clock : Nat) : (clock_gettime clock).toNanos = (clock : Int) := by
  unfold clock_gettime timespec.toNanos
  dsimp only
  omega

theorem clock_gettime_normalised (clock : Nat) : (clock_gettime clock).normalised := by
  unfold clock_gettime timespec.normalised
  dsimp only
  omega

theorem nanosleep_ge (req : timespec) (extra_ns clock : Nat) :
    clock ≤ nanosleep req extra_ns clock := by
  unfold nanosleep
  split <;> omega

theorem loopIteration_clock_ge (bits : Nat) (g : Globals ℚ) (e : IterEnv) (s : LoopState) :
    s.clock + e.acquire_ns ≤ (loopIteration bits g e s).clock := by
  simp only [loopIteration]
  split
  · exact nanosleep_ge _ _ _
  · omega

/-- The pacing step of iteration `k + 1` when the distance to `start` is inside
the range of `long`. -/
theorem pacing_in_loop (bits c0 k : Nat) (s : LoopState) (acq : Nat)
    (h1 : s.start = clock_gettime c0) (h2 : s.sample_count = wrapLong bits (k : Int))
    (h4 : c0 ≤ s.clock)
    (hr : ((s.clock + acq : Nat) : Int) - (c0 : Int) < longLimit bits) :
    pacing bits (wrapLong bits (s.sample_count + 1)) s.start (clock_gettime (s.clock + acq))
        s.sleep_time =
      if ((s.clock + acq : Nat) : Int) - (c0 : Int) <
          wrapLong bits (((k : Int) + 1) * 1000000) then
        ({ s.sleep_time with
            tv_nsec := wrapLong bits (wrapLong bits (((k : Int) + 1) * 1000000) -
              (((s.clock + acq : Nat) : Int) - (c0 : Int))) }, true)
      else (s.sleep_time, false) := by
  have hM := longLimit_pos bits
  have hc : wrapLong bits (((s.clock + acq : Nat) : Int) - (c0 : Int)) =
      ((s.clock + acq : Nat) : Int) - (c0 : Int) :=
    wrapLong_of_range bits _ (by omega) hr
  rw [pacing_eq, h1, clock_gettime_toNanos, clock_gettime_toNanos, hc, h2, wrapLong_add_left,
    wrapLong_mul_left]


/-- The clock after iteration `k + 1` when its target is inside the range of
`long` and the loop has kept pace so far. -/
theorem loopIteration_clock_paced (bits : Nat) (g : Globals ℚ) (e : IterEnv) (c0 k : Nat)
    (s : LoopState) (h1 : s.start = clock_gettime c0)
    (h2 : s.sample_count = wrapLong bits (k : Int)) (h3 : s.sleep_time.tv_sec = 0)
    (hp : (c0 : Int) + (k : Int) * 1000000 ≤ s.clock)
    (hT : ((k : Int) + 1) * 1000000 < longLimit bits)
    (hlt : ((s.clock + e.acquire_ns : Nat) : Int) - (c0 : Int) < ((k : Int) + 1) * 1000000) :
    ((loopIteration bits g e s).clock : Int) =
      (c0 : Int) + ((k : Int) + 1) * 1000000 + e.extra_ns ∧
    (loopIteration bits g e s).requests =
      { tv_sec := 0, tv_nsec := ((k : Int) + 1) * 1000000 -
          (((s.clock + e.acquire_ns : Nat) : Int) - (c0 : Int)) } :: s.requests := by
  have hM := longLimit_pos bits
  have h4 : c0 ≤ s.clock := by omega
  have hT2 : wrapLong bits (((k : Int) + 1) * 1000000) = ((k : Int) + 1) * 1000000 :=
    wrapLong_of_range bits _ (by omega) hT
  have hd : wrapLong bits (((k : Int) + 1) * 1000000 -
      (((s.clock + e.acquire_ns : Nat) : Int) - (c0 : Int))) =
      ((k : Int) + 1) * 1000000 - (((s.clock + e.acquire_ns : Nat) : Int) - (c0 : Int)) :=
    wrapLong_of_range bits _ (by omega) (by omega)
  have hp2 := pacing_in_loop bits c0 k s e.acquire_ns h1 h2 h4 (by omega)
  rw [hT2, if_pos hlt, hd] at hp2
  have hv : timespec.normalised
      { s.sleep_time with
          tv_nsec := ((k : Int) + 1) * 1000000 -
            (((s.clock + e.acquire_ns : Nat) : Int) - (c0 : Int)) } := by
    unfold timespec.normalised
    dsimp only
    omega
  constructor
  · have hc : (loopIteration bits g e s).clock =
        nanosleep { s.sleep_time with
          tv_nsec := ((k : Int) + 1) * 1000000 -
            (((s.clock + e.acquire_ns : Nat) : Int) - (c0 : Int)) } e.extra_ns
          (s.clock + e.acquire_ns) := by
      simp only [loopIteration, hp2, if_true]
    rw [hc, nanosleep, if_pos hv]
    simp only [timespec.toNanos]
    omega
  · simp only [loopIteration, hp2, if_true, h3]

theorem loopStart_inv (bits c0 : Nat) : LoopInv bits c0 0 (loopStart c0) where
  start_eq := rfl
  count_eq := by
    have hM := longLimit_pos bits
    rw [wrapLong_of_range bits _ (by simp; omega) (by simpa using hM)]
    rfl
  sec_eq := rfl
  clock_lo := by simp [loopStart]
  paced := by simp [loopStart]
  floor := by simp [loopStart]
  records_len := rfl
  requests_len := by simp [loopStart]
  requests_ok := by simp [loopStart]

theorem loopIteration_inv (bits : Nat) (g : Globals ℚ) (e : IterEnv) (c0 k : Nat)
    (s : LoopState) (h : LoopInv bits c0 k s) :
    LoopInv bits c0 (k + 1) (loopIteration bits g e s) := by
  obtain ⟨h1, h2, h3, h4, h5, h6, h7, h8, h9⟩ := h
  have hM := longLimit_pos bits
  have hge := loopIteration_clock_ge bits g e s
  have hpaced : ((k + 1 : Nat) : Int) * 1000000 < longLimit bits →
      (c0 : Int) + ((k + 1 : Nat) : Int) * 1000000 ≤ (loopIteration bits g e s).clock := by
    intro hT
    push_cast at hT ⊢
    have hp := h5 (by omega)
    by_cases hlt : ((s.clock + e.acquire_ns : Nat) : Int) - (c0 : Int) <
        ((k : Int) + 1) * 1000000
    · have := (loopIteration_clock_paced bits g e c0 k s h1 h2 h3 hp hT hlt).1
      omega
    · omega
  refine ⟨h1, ?_, ?_, ?_, hpaced, ?_, ?_, ?_, ?_⟩
  · simp only [loopIteration, h2]
    rw [wrapLong_add_left]
    push_cast
    rfl
  · simp only [loopIteration, pacing]
    split <;> exact h3
  · omega
  · by_cases hfl : (c0 : Int) + longLimit bits - 1000000 ≤
        ((s.clock + e.acquire_ns : Nat) : Int)
    · right; omega
    · left
      apply hpaced
      push_cast
      rcases h6 with h6 | h6 <;> omega
  · simp [loopIteration, h7]
  · simp only [loopIteration]
    split
    · simp only [List.length_cons]; omega
    · omega
  · intro hrun r hr
    have hr1 : ((s.clock + e.acquire_ns : Nat) : Int) - (c0 : Int) < longLimit bits := by omega
    have hold := h9 (by omega)
    have hp2 := pacing_in_loop bits c0 k s e.acquire_ns h1 h2 h4 hr1
    by_cases hlt : ((s.clock + e.acquire_ns : Nat) : Int) - (c0 : Int) <
        wrapLong bits (((k : Int) + 1) * 1000000)
    · rw [if_pos hlt] at hp2
      simp only [loopIteration, hp2, if_true, List.mem_cons] at hr
      rcases hr with hr | hr
      · have hW := wrapLong_range bits (((k : Int) + 1) * 1000000)
        have hd : wrapLong bits (wrapLong bits (((k : Int) + 1) * 1000000) -
            (((s.clock + e.acquire_ns : Nat) : Int) - (c0 : Int))) =
            wrapLong bits (((k : Int) + 1) * 1000000) -
              (((s.clock + e.acquire_ns : Nat) : Int) - (c0 : Int)) :=
          wrapLong_of_range bits _ (by omega) (by omega)
        rw [hr, hd]
        unfold boundedRequest PERIOD_NS
        dsimp only
        refine ⟨h3, by omega, ?_⟩
        by_cases hT : ((k : Int) + 1) * 1000000 < longLimit bits
        · have hT2 := wrapLong_of_range bits (((k : Int) + 1) * 1000000) (by omega) hT
          have hp := h5 (by omega)
          omega
        · rcases h6 with h6 | h6 <;> omega
      · exact hold r hr
    · rw [if_neg hlt] at hp2
      simp only [loopIteration, hp2, Bool.false_eq_true, if_false] at hr
      exact hold r hr

theorem runLoop_inv (bits : Nat) (g : Globals ℚ) (env : Nat → IterEnv) (c0 k : Nat) :
    LoopInv bits c0 k (runLoop bits g env k (loopStart c0)) := by
  induction k with
  | zero => exact loopStart_inv bits c0
  | succ k ih => exact loopIteration_inv bits g (env k) c0 k _ ih


theorem wrapLong_of_next_range (bits : Nat) (x : Int) (h1 : longLimit bits ≤ x)
    (h2 : x < 3 * longLimit bits) : wrapLong bits x = x - 2 * longLimit bits := by
  have hc : x ≡ x - 2 * longLimit bits [ZMOD 2 * longLimit bits] := by
    rw [Int.modEq_iff_dvd]
    exact ⟨-1, by ring⟩
  rw [wrapLong_congr bits _ _ hc]
  exact wrapLong_of_range bits _ (by omega) (by omega)

/-- With an acquisition that takes no time and sleeps that do not overrun,
the clock after `k` iterations stands at `k` periods, as long as `k` periods
are inside the range of `long`. -/
theorem runLoop_idle (bits : Nat) (g : Globals ℚ) (k : Nat)
    (hk : (k : Int) * 1000000 < longLimit bits) :
    ((runLoop bits g idleEnv k (loopStart 0)).clock : Int) = (k : Int) * 1000000 := by
  induction k with
  | zero => rfl
  | succ k ih =>
    push_cast at hk
    have ih2 := ih (by omega)
    have hinv := runLoop_inv bits g idleEnv 0 k
    have hstep := (loopIteration_clock_paced bits g (idleEnv k) 0 k
      (runLoop bits g idleEnv k (loopStart 0)) hinv.start_eq hinv.count_eq hinv.sec_eq
      (by omega) hk (by simp only [idleEnv]; omega)).1
    simp only [idleEnv] at hstep
    rw [runLoop]
    simp only [idleEnv]
    push_cast at hstep ⊢
    omega

/-- The first iteration whose target leaves the range of `long` does not sleep:
after it the idle loop is one period behind. -/
theorem runLoop_idle_overflow (bits : Nat) (g : Globals ℚ) (k : Nat)
    (h1 : (k : Int) * 1000000 < longLimit bits)
    (h2 : longLimit bits ≤ ((k : Int) + 1) * 1000000) (h3 : 1000000 ≤ longLimit bits) :
    ((runLoop bits g idleEnv (k + 1) (loopStart 0)).clock : Int) = (k : Int) * 1000000 := by
  have hc := runLoop_idle bits g k h1
  have hinv := runLoop_inv bits g idleEnv 0 k
  have hp := pacing_in_loop bits 0 k (runLoop bits g idleEnv k (loopStart 0)) 0
    hinv.start_eq hinv.count_eq hinv.clock_lo (by push_cast; omega)
  have hT := wrapLong_of_next_range bits (((k : Int) + 1) * 1000000) h2 (by omega)
  rw [hT, if_neg (by push_cast; omega)] at hp
  rw [runLoop]
  simp only [loopIteration, idleEnv, hp, Bool.false_eq_true, if_false]
  push_cast
  omega

theorem runTransfers_none (l : List Event) : runTransfers none l = (l, true) := by
  induction l with
  | nil => rfl
  | cons e rest ih =>
    rw [runTransfers, ih]
    split <;> rfl

theorem mem_repeatEvents_iff (e : Event) (n : Nat) (l : List Event) :
    e ∈ repeatEvents n l ↔ n ≠ 0 ∧ e ∈ l := by
  induction n with
  | zero => simp [repeatEvents]
  | succ n ih =>
    simp only [repeatEvents, List.mem_append, ih]
    constructor
    · rintro (h | ⟨_, h⟩) <;> exact ⟨Nat.succ_ne_zero n, h⟩
    · rintro ⟨_, h⟩
      exact Or.inl h

theorem mem_afterOpen :
    Event.say Msg.selfTestVerdict ∈ afterOpen ∧ Event.say Msg.gyroOffsets ∈ afterOpen ∧
    Event.say Msg.noResponse ∉ afterOpen ∧ Event.say Msg.identified ∉ afterOpen ∧
    Event.say Msg.unexpectedWhoami ∉ afterOpen := by
  simp [afterOpen, initialize_sensor, perform_self_test_and_calibration,
    calculateOffsetsEvents, writeEvents, wordEvents, selfTestPass, mem_repeatEvents_iff]

theorem runTransfers_subset (fault : Option Nat) (l : List Event) (e : Event)
    (h : e ∈ (runTransfers fault l).1) : e ∈ l := by
  induction l generalizing fault with
  | nil => simp [runTransfers] at h
  | cons x rest ih =>
    have hcons : ∀ f : Option Nat, e ∈ x :: (runTransfers f rest).1 → e ∈ x :: rest := by
      intro f hf
      simp only [List.mem_cons] at hf ⊢
      rcases hf with hf | hf
      · exact Or.inl hf
      · exact Or.inr (ih f hf)
    by_cases ht : isTransfer x = true
    · cases fault with
      | none =>
        simp only [runTransfers, ht, if_true] at h
        exact hcons none h
      | some n =>
        cases n with
        | zero =>
          simp only [runTransfers, ht, if_true, List.mem_singleton] at h
          simp [h]
        | succ n =>
          simp only [runTransfers, ht, if_true] at h
          exact hcons (some n) h
    · cases fault with
      | none =>
        simp only [runTransfers, ht, if_false] at h
        exact hcons none h
      | some n =>
        simp only [runTransfers, ht, if_false] at h
        exact hcons (some n) h

/-- Startup after a non-zero identity byte: the identity lines, then `fopen`
and what follows it. -/
theorem main_startup_nonzero (w : Nat) (fopen_ok : Bool) (bus_fault : Option Nat)
    (hw : w < 256) (h0 : w ≠ 0) :
    main_startup ⟨true, true, some w, fopen_ok, bus_fault⟩ =
      openAndCalibrate ⟨true, true, some w, fopen_ok, bus_fault⟩
        ([Event.openBus, Event.setSlaveAddress, Event.busRead REG_WHO_AM_I,
          Event.say (Msg.whoamiLine w EXPECTED_WHOAMI)] ++
          [Event.say (if w = EXPECTED_WHOAMI then Msg.identified else Msg.unexpectedWhoami)]) := by
  have hm : w % 256 = w := Nat.mod_eq_of_lt hw
  have hE : EXPECTED_WHOAMI = 0xFA := rfl
  rw [hE]
  by_cases hx : w = 0xFA
  · subst hx
    simp [main_startup, hE]
  · simp [main_startup, hm, hx, h0, hE]

/-- What the actions of startup after a non-zero identity byte can be. -/
theorem openAndCalibrate_events (env : StartupEnv) (pre : List Event) (e : Event)
    (h : e ∈ (openAndCalibrate env pre).events) :
    e ∈ pre ∨ e = Event.fopenData ∨ e = Event.closeBus ∨ e = Event.fcloseData ∨
      e ∈ afterOpen := by
  unfold openAndCalibrate at h
  split at h
  · simp only [List.mem_append, List.mem_cons, List.mem_singleton, List.not_mem_nil,
      or_false] at h
    tauto
  · split at h
    · simp only [List.mem_append, List.mem_singleton] at h
      rcases h with (h | h) | h
      · exact Or.inl h
      · exact Or.inr (Or.inl h)
      · exact Or.inr (Or.inr (Or.inr (Or.inr (runTransfers_subset _ _ _ h))))
    · simp only [cleanup, if_true, List.mem_append, List.mem_singleton] at h
      rcases h with ((h | h) | h) | h | h
      · exact Or.inl h
      · exact Or.inr (Or.inl h)
      · exact Or.inr (Or.inr (Or.inr (Or.inr (runTransfers_subset _ _ _ h))))
      · exact Or.inr (Or.inr (Or.inr (Or.inl h)))
      · exact Or.inr (Or.inr (Or.inl h))

theorem openAndCalibrate_pre (env : StartupEnv) (pre : List Event) (e : Event)
    (h : e ∈ pre ∨ e = Event.fopenData) : e ∈ (openAndCalibrate env pre).events := by
  unfold openAndCalibrate
  split
  · simp only [List.mem_append, List.mem_cons]
    tauto
  · split <;> simp only [List.mem_append, List.mem_singleton] <;> tauto

theorem samplerStep_count (s : Sampler) (t : Tick)
    (h : s.records + unwritten s.pc = s.entered) :
    (samplerStep s t).records + unwritten (samplerStep s t).pc = (samplerStep s t).entered := by
  obtain ⟨running, pc, records, entered⟩ := s
  cases t with
  | signal => cases pc <;> simpa [samplerStep, signal_handler, unwritten] using h
  | step bus_ok =>
    cases pc <;> cases running <;> cases bus_ok <;>
      simp [samplerStep, signal_handler, unwritten] at h ⊢ <;> omega

theorem samplerRun_count (ticks : List Tick) (s : Sampler)
    (h : s.records + unwritten s.pc = s.entered) :
    (samplerRun s ticks).records + unwritten (samplerRun s ticks).pc =
      (samplerRun s ticks).entered := by
  induction ticks generalizing s with
  | nil => exact h
  | cons t ts ih => exact ih (samplerStep s t) (samplerStep_count s t h)

theorem samplerStep_stopping (s : Sampler) (t : Tick) (h : s.running = false) :
    (samplerStep s t).running = false ∧
    (samplerStep s t).records + owed (samplerStep s t).pc ≤ s.records + owed s.pc := by
  obtain ⟨running, pc, records, entered⟩ := s
  simp only at h
  subst h
  cases t with
  | signal => cases pc <;> simp [samplerStep, signal_handler, owed]
  | step bus_ok => cases pc <;> cases bus_ok <;> simp [samplerStep, signal_handler, owed]

theorem samplerRun_stopping (ticks : List Tick) (s : Sampler) (h : s.running = false) :
    (samplerRun s ticks).running = false ∧
    (samplerRun s ticks).records + owed (samplerRun s ticks).pc ≤ s.records + owed s.pc := by
  induction ticks generalizing s with
  | nil => exact ⟨h, le_refl _⟩
  | cons t ts ih =>
    obtain ⟨h1, h2⟩ := samplerStep_stopping s t h
    obtain ⟨h3, h4⟩ := ih (samplerStep s t) h1
    exact ⟨h3, le_trans h4 h2⟩

theorem samplerRun_stopped (ticks : List Tick) (s : Sampler) (h : s.pc = Pc.stopped) :
    samplerRun s ticks = s := by
  induction ticks with
  | nil => rfl
  | cons t ts ih =>
    have hs : samplerStep s t = s := by
      obtain ⟨running, pc, records, entered⟩ := s
      simp only at h
      subst h
      cases t <;> rfl
    show samplerRun (samplerStep s t) ts = s
    rw [hs, ih]

theorem samplerRun_flag (ticks : List Tick) (s : Sampler)
    (h : s.pc = Pc.stopped → s.running = false) :
    (samplerRun s ticks).pc = Pc.stopped → (samplerRun s ticks).running = false := by
  induction ticks generalizing s with
  | nil => exact h
  | cons t ts ih =>
    apply ih (samplerStep s t)
    obtain ⟨running, pc, records, entered⟩ := s
    cases t with
    | signal => cases pc <;> simp_all [samplerStep, signal_handler]
    | step bus_ok =>
      cases pc <;> cases running <;> cases bus_ok <;> simp [samplerStep, signal_handler] at h ⊢

/-- C8 (as amended): in the step relation of the loop (flag set at the start,
cleared by the handler at any point, never set again, read only at the loop
test), after any schedule: between iterations and after the loop the records
written equal the iterations entered; inside an iteration before its `fprintf`,
and after the `exit(1)` of a failed bus transfer, one entered iteration has no
record; once the flag is cleared it stays cleared and at most one further record
is written, none if the flag was cleared with no record pending; after the
loop has seen the cleared flag nothing changes any more. -/
theorem cancellation_invariant (ticks post : List Tick) :
    samplerStart.running = true ∧
    ((samplerRun samplerStart ticks).pc = Pc.top ∨
      (samplerRun samplerStart ticks).pc = Pc.pace ∨
      (samplerRun samplerStart ticks).pc = Pc.stopped →
        (samplerRun samplerStart ticks).records = (samplerRun samplerStart ticks).entered) ∧
    ((samplerRun samplerStart ticks).pc = Pc.acquire ∨
      (samplerRun samplerStart ticks).pc = Pc.emit ∨
      (samplerRun samplerStart ticks).pc = Pc.crashed →
        (samplerRun samplerStart ticks).records + 1 =
          (samplerRun samplerStart ticks).entered) ∧
    ((samplerRun samplerStart ticks).running = false →
      (samplerRun (samplerRun samplerStart ticks) post).running = false ∧
      (samplerRun (samplerRun samplerStart ticks) post).records ≤
        (samplerRun samplerStart ticks).records + 1) ∧
    ((samplerRun samplerStart ticks).running = false →
      (samplerRun samplerStart ticks).pc ≠ Pc.acquire →
      (samplerRun samplerStart ticks).pc ≠ Pc.emit →
        (samplerRun (samplerRun samplerStart ticks) post).records =
          (samplerRun samplerStart ticks).records) ∧
    ((samplerRun samplerStart ticks).pc = Pc.stopped →
      (samplerRun samplerStart ticks).running = false ∧
      samplerRun (samplerRun samplerStart ticks) post = samplerRun samplerStart ticks) := by
  have hc := samplerRun_count ticks samplerStart rfl
  have hmono : ∀ l : List Tick, ∀ s : Sampler, s.records ≤ (samplerRun s l).records := by
    intro l
    induction l with
    | nil => intro s; exact le_refl _
    | cons t ts ih =>
      intro s
      refine le_trans ?_ (ih (samplerStep s t))
      obtain ⟨running, pc, records, entered⟩ := s
      cases t with
      | signal => cases pc <;> simp [samplerStep, signal_handler]
      | step bus_ok => cases pc <;> cases running <;> cases bus_ok <;> simp [samplerStep, signal_handler]
  refine ⟨rfl, ?_, ?_, ?_, ?_, ?_⟩
  · rintro (h | h | h) <;> simpa [h, unwritten] using hc
  · rintro (h | h | h) <;> simpa [h, unwritten] using hc
  · intro h
    obtain ⟨h1, h2⟩ := samplerRun_stopping post _ h
    refine ⟨h1, ?_⟩
    have : owed (samplerRun samplerStart ticks).pc ≤ 1 := by
      cases (samplerRun samplerStart ticks).pc <;> simp [owed]
    omega
  · intro h ha he
    obtain ⟨_, h2⟩ := samplerRun_stopping post _ h
    have h0 : owed (samplerRun samplerStart ticks).pc = 0 := by
      revert ha he
      cases (samplerRun samplerStart ticks).pc <;> simp [owed]
    have := hmono post (samplerRun samplerStart ticks)
    omega
  · intro h
    exact ⟨samplerRun_flag ticks samplerStart (by simp [samplerStart]) h,
      samplerRun_stopped post _ h⟩

/-- C8 (as stated) fails when a bus transfer fails: the first iteration is
entered and the process ends inside it, so one iteration has been entered and no
record is ever written. -/
theorem entered_iteration_without_record :
    (samplerRun samplerStart [Tick.step true, Tick.step false]).entered = 1 ∧
    (samplerRun samplerStart [Tick.step true, Tick.step false]).records = 0 ∧
    (samplerRun samplerStart [Tick.step true, Tick.step false]).pc = Pc.crashed ∧
    (samplerRun samplerStart
      [Tick.step true, Tick.step false, Tick.step true, Tick.step true, Tick.signal,
        Tick.step true]).records = 0 := by
  decide

end Gyro
